import Mathlib

/-!
# Verification of the ad-index coordination core

A shallow embedding of the persistent store (`ad_index/db.py`) and the two
worker loops (`ad_index/server.py`, `ad_index/notifier.py`) of the ad-index
repository, together with theorems settling the specification claims.

Modelling conventions:
* The SQLite database is a `DBState`: each table is a list of row structures,
  together with the `AUTOINCREMENT` counters and an explicit rowid counter for
  `ad_content` (whose trimming query addresses rows by `rowid`).
* Timestamps (`STRFTIME('%s')`) are an explicit `now : Int` argument.
* SHA-256 (`hash_session_id`) is an uninterpreted parameter
  `hashFn : String → String`; the code only ever uses it as a lookup key.
* Every `@transaction` method becomes `DBState → Except DBError (DBState × α)`;
  `runTxn` applies the decorator's discipline: on an exception the transaction
  is rolled back, so the resulting state is the original one.
* Python exceptions (`sqlite3.IntegrityError`, `DataArgumentError`,
  `TypeError` from `json.loads(None)`) become constructors of `DBError`.
-/

namespace AdIndex

/-- Errors thrown out of store operations (Python exception classes). -/
inductive DBError where
  /-- `sqlite3.IntegrityError` with its message. -/
  | integrityError (msg : String)
  /-- `ad_index.db.DataArgumentError` with its message. -/
  | dataArgument (msg : String)
  /-- `TypeError`, raised by `json.loads(None)`. -/
  | typeError
  /-- `json.JSONDecodeError`, raised by `json.loads` on non-JSON text. -/
  | jsonDecodeError
  deriving DecidableEq, Repr

/-- Row of table `ad_queries` (db.py, `_create_tables`). -/
structure AdQueryRow where
  ad_query_id : Nat
  nickname : String
  query : String
  filters : List String
  next_pull : Int
  last_pull : Option Int
  last_error : Option String
  last_notify : Option Int
  deriving DecidableEq, Repr

/-- Row of table `clients`. -/
structure ClientRow where
  client_id : Nat
  vapid_pub : String
  vapid_priv : String
  session_id : String
  session_hash : String
  push_sub : Option String
  last_seen : Int
  deriving DecidableEq, Repr

/-- Row of table `client_subs` (UNIQUE(ad_query_id, client_id)). -/
structure ClientSubRow where
  ad_query_id : Nat
  client_id : Nat
  deriving DecidableEq, Repr

/-- The notification payload built by `DB.insert_ad` (`json.dumps` of the
nested dict); modelled structurally rather than as serialized JSON text. -/
structure NotifyMessage where
  adQueryId : Nat
  nickname : String
  adId : String
  accountName : String
  accountUrl : String
  adText : String
  deriving DecidableEq, Repr

/-- Row of table `push_queue`. -/
structure PushQueueRow where
  id : Nat
  client_id : Nat
  message : NotifyMessage
  retry_time : Int
  retries : Nat
  deriving DecidableEq, Repr

/-- Row of table `ad_content` (UNIQUE(ad_query_id, id)); `rowid` is SQLite's
implicit rowid, used by `cleanup_ads` to address victims. -/
structure AdContentRow where
  rowid : Nat
  ad_query_id : Nat
  id : String
  account_name : String
  account_url : String
  start_date : Int
  last_seen : Int
  text_hash : String
  text : String
  screenshot : List Nat
  deriving DecidableEq, Repr

/-- Row of table `ad_content_text` (UNIQUE(ad_query_id, text_hash)). -/
structure AdContentTextRow where
  ad_query_id : Nat
  text_hash : String
  text : String
  last_seen : Int
  deriving DecidableEq, Repr

/-- The whole database, with the `AUTOINCREMENT` counters. -/
structure DBState where
  ad_queries : List AdQueryRow
  clients : List ClientRow
  client_subs : List ClientSubRow
  push_queue : List PushQueueRow
  ad_content : List AdContentRow
  ad_content_text : List AdContentTextRow
  next_ad_query_id : Nat
  next_client_id : Nat
  next_push_id : Nat
  next_ad_rowid : Nat
  deriving DecidableEq, Repr

/-- The freshly created empty database. -/
def DBState.empty : DBState :=
  { ad_queries := [], clients := [], client_subs := [], push_queue := []
    ad_content := [], ad_content_text := []
    next_ad_query_id := 1, next_client_id := 1, next_push_id := 1
    next_ad_rowid := 1 }

/-- Decidable equality of `Except` results, so that concrete runs can be
checked by `decide`. -/
instance {ε α : Type} [DecidableEq ε] [DecidableEq α] :
    DecidableEq (Except ε α) := fun a b =>
  match a, b with
  | .error e1, .error e2 =>
    if h : e1 = e2 then .isTrue (by rw [h]) else .isFalse (by
      intro hc; cases hc; exact h rfl)
  | .ok a1, .ok a2 =>
    if h : a1 = a2 then .isTrue (by rw [h]) else .isFalse (by
      intro hc; cases hc; exact h rfl)
  | .error _, .ok _ => .isFalse (by intro hc; cases hc)
  | .ok _, .error _ => .isFalse (by intro hc; cases hc)

/-- The `transaction` decorator (db.py): on an exception the transaction is
rolled back, so an erroring operation leaves the database unchanged. -/
def runTxn {α : Type} (op : DBState → Except DBError (DBState × α))
    (st : DBState) : DBState × Except DBError α :=
  match op st with
  | .error e => (st, .error e)
  | .ok (st', a) => (st', .ok a)

/-- ASCII-relevant model of Python `str.lower()`. -/
def pyLower (s : String) : String := String.mk (s.data.map Char.toLower)

/-- Tests whether the first character list starts the second one. -/
def charsStartsWith : List Char → List Char → Bool
  | [], _ => true
  | _ :: _, [] => false
  | a :: as, b :: bs => a == b && charsStartsWith as bs

/-- Tests whether `needle` occurs as a contiguous substring of `hay`. -/
def charsIsSubstr (needle : List Char) : List Char → Bool
  | [] => charsStartsWith needle []
  | hay@(_ :: t) => charsStartsWith needle hay || charsIsSubstr needle t

/-- Python `needle in hay` on strings. -/
def pyInStr (needle hay : String) : Bool := charsIsSubstr needle.data hay.data

/-- Whitespace accepted around a JSON document by Python's `json.loads`
(space, tab, newline, carriage return). -/
def isJsonWs (c : Char) : Bool :=
  c == ' ' || c == '\t' || c == '\n' || c == '\r'

/-- The given string with leading and trailing JSON whitespace removed. -/
def jsonStrip (s : String) : String :=
  String.mk (((s.data.dropWhile isJsonWs).reverse.dropWhile isJsonWs).reverse)

/-- Models `json.loads` applied to the `Optional[str]` value `push_sub` as
received by `DB.update_client_push_sub`, on the inputs that method can see
(Python `None`, or JSON text forwarded by the HTTP layer): `json.loads(None)`
raises `TypeError`; on text, the result is the JSON value `null` exactly when
the text is the literal `null` (optionally surrounded by whitespace), and
whitespace-only text raises `json.JSONDecodeError`. -/
def jsonLoadsPushSub : Option String → Except DBError (Option String)
  | none => .error .typeError
  | some s =>
    if jsonStrip s = "" then .error .jsonDecodeError
    else if jsonStrip s = "null" then .ok none
    else .ok (some s)

/-- Argument record `AdQueryBase` (db.py dataclass). -/
structure AdQueryBase where
  nickname : String
  query : String
  filters : List String
  deriving DecidableEq, Repr

/-- Argument record `AdQueryResult` (db.py dataclass), as passed to
`update_ad_query`. -/
structure AdQueryResultRec where
  nickname : String
  query : String
  filters : List String
  ad_query_id : Nat
  subscribed : Bool
  deriving DecidableEq, Repr

/-- Record `ClientPushInfo` (db.py dataclass); both fields come from a SQL
LEFT JOIN on `clients` and are therefore null when the client row is gone. -/
structure ClientPushInfoRec where
  push_sub : Option String
  vapid_priv : Option String
  deriving DecidableEq, Repr

/-- Record `PushQueueItem` (db.py dataclass) as returned by
`push_queue_next`. -/
structure PushQueueItemRec where
  id : Nat
  client_id : Nat
  push_info : ClientPushInfoRec
  message : NotifyMessage
  retries : Nat
  deriving DecidableEq, Repr

/-- `DB.create_session`: INSERT INTO clients with `last_seen = now`;
the UNIQUE(session_hash) constraint raises `IntegrityError` on a duplicate. -/
def create_session (hashFn : String → String) (now : Int)
    (vapid_pub vapid_priv session_id : String) (st : DBState) :
    Except DBError (DBState × Unit) :=
  let h := hashFn session_id
  if st.clients.any (fun c => c.session_hash == h) then
    .error (.integrityError "UNIQUE constraint failed: clients.session_hash")
  else
    .ok ({ st with
      clients := st.clients ++
        [{ client_id := st.next_client_id, vapid_pub, vapid_priv, session_id,
           session_hash := h, push_sub := none, last_seen := now }],
      next_client_id := st.next_client_id + 1 }, ())

/-- Body of `DB.insert_ad_query` after the optional client lookup: INSERT INTO
ad_queries with `next_pull = now` (UNIQUE(nickname) raises `IntegrityError`,
which the method does not catch), then optionally INSERT the subscription. -/
def insertAdQueryRows (now : Int) (q : AdQueryBase) (subClient : Option Nat)
    (st : DBState) : Except DBError (DBState × Option Nat) :=
  if st.ad_queries.any (fun r => r.nickname == q.nickname) then
    .error (.integrityError "UNIQUE constraint failed: ad_queries.nickname")
  else
    let id := st.next_ad_query_id
    let row : AdQueryRow :=
      { ad_query_id := id, nickname := q.nickname, query := q.query,
        filters := q.filters, next_pull := now, last_pull := none,
        last_error := none, last_notify := none }
    let st1 := { st with ad_queries := st.ad_queries ++ [row],
                         next_ad_query_id := id + 1 }
    match subClient with
    | none => .ok (st1, some id)
    | some cid =>
      .ok ({ st1 with client_subs := st1.client_subs ++ [⟨id, cid⟩] }, some id)

/-- `DB.insert_ad_query` (db.py:270-301). `if sub_session_id:` uses Python
truthiness, so `None` and the empty string both skip the client lookup; when a
lookup happens (`async for`&`break`: the first matching row) and finds no
client, the method returns `None` without writing any row. -/
def insert_ad_query (hashFn : String → String) (now : Int) (q : AdQueryBase)
    (sub_session_id : Option String) (st : DBState) :
    Except DBError (DBState × Option Nat) :=
  let subSession : Option String :=
    match sub_session_id with
    | none => none
    | some s => if s = "" then none else some s
  match subSession with
  | some s =>
    match st.clients.find? (fun c => c.session_hash == hashFn s) with
    | none => .ok (st, none)
    | some c => insertAdQueryRows now q (some c.client_id) st
  | none => insertAdQueryRows now q none st

/-- `DB._toggle_ad_query_subscription` (db.py:431-458). The client lookup has
no `break`, so `client_id` is the last matching row. The statement
`exists = await self._conn.execute(...)` binds `exists` to the cursor object,
which is always truthy, so `if not exists: return False` can never fire: the
existence of the ad query is in fact not checked. A `REPLACE INTO client_subs`
on a missing ad query therefore hits the FOREIGN KEY constraint instead, while
the DELETE branch succeeds (deleting nothing) and returns `True`. -/
def toggleAdQuerySubscriptionRows (hashFn : String → String) (ad_query_id : Nat)
    (session_id : String) (subscribed : Bool) (st : DBState) :
    Except DBError (DBState × Bool) :=
  let h := hashFn session_id
  match (st.clients.filter (fun c => c.session_hash == h)).getLast? with
  | none => .ok (st, false)
  | some c =>
    if subscribed then
      if st.ad_queries.any (fun r => r.ad_query_id == ad_query_id) then
        .ok ({ st with client_subs :=
          (st.client_subs.filter (fun e =>
            !(e.ad_query_id == ad_query_id && e.client_id == c.client_id))) ++
          [⟨ad_query_id, c.client_id⟩] }, true)
      else
        .error (.integrityError "FOREIGN KEY constraint failed")
    else
      .ok ({ st with client_subs := st.client_subs.filter (fun e =>
        !(e.ad_query_id == ad_query_id && e.client_id == c.client_id)) }, true)

/-- `DB.toggle_ad_query_subscription` (db.py:423-429): the transactional
wrapper around the helper. -/
def toggle_ad_query_subscription (hashFn : String → String) (ad_query_id : Nat)
    (session_id : String) (subscribed : Bool) (st : DBState) :
    Except DBError (DBState × Bool) :=
  toggleAdQuerySubscriptionRows hashFn ad_query_id session_id subscribed st

/-- `DB.update_ad_query` (db.py:303-332): UPDATE nickname/query/filters with
`next_pull = now`, `last_notify = NULL`; a UNIQUE(nickname) violation (the
updated row exists and a different row already holds the nickname) is caught
and re-raised as `DataArgumentError("name is already in use")`; then the
subscription is toggled to match `q.subscribed`. -/
def update_ad_query (hashFn : String → String) (now : Int)
    (q : AdQueryResultRec) (session_id : String) (st : DBState) :
    Except DBError (DBState × (Bool × Bool)) :=
  let targetExists := st.ad_queries.any (fun r => r.ad_query_id == q.ad_query_id)
  if targetExists &&
      st.ad_queries.any (fun r =>
        r.nickname == q.nickname && !(r.ad_query_id == q.ad_query_id)) then
    .error (.dataArgument "name is already in use")
  else
    let st1 := { st with ad_queries := st.ad_queries.map (fun r =>
      if r.ad_query_id == q.ad_query_id then
        { r with nickname := q.nickname, query := q.query, filters := q.filters,
                 next_pull := now, last_notify := none }
      else r) }
    match toggleAdQuerySubscriptionRows hashFn q.ad_query_id session_id
        q.subscribed st1 with
    | .error e => .error e
    | .ok (st2, updated_sub) => .ok (st2, (targetExists, updated_sub))

/-- `DB.delete_ad_query` (db.py:460-467): DELETE FROM ad_queries; the schema's
ON DELETE CASCADE clauses purge `client_subs`, `ad_content` and
`ad_content_text`; `push_queue` references only `clients` and is untouched. -/
def delete_ad_query (id : Nat) (st : DBState) :
    Except DBError (DBState × Bool) :=
  let deleted := st.ad_queries.any (fun r => r.ad_query_id == id)
  .ok ({ st with
    ad_queries := st.ad_queries.filter (fun r => !(r.ad_query_id == id)),
    client_subs := st.client_subs.filter (fun e => !(e.ad_query_id == id)),
    ad_content := st.ad_content.filter (fun r => !(r.ad_query_id == id)),
    ad_content_text :=
      st.ad_content_text.filter (fun r => !(r.ad_query_id == id)) }, deleted)

/-- `DB.update_client_push_sub` (db.py:499-522): `json.loads(push_sub)` first
(raising `TypeError` on Python `None`), normalizing JSON `null` to database
null; then UPDATE push_sub/last_seen by session hash; the changed-row count
decides the returned boolean, and when a row changed and the stored value is
null the client's queued pushes are deleted (the scalar subquery yields the
first client row matching the hash). -/
def update_client_push_sub (hashFn : String → String) (now : Int)
    (session_id : String) (push_sub : Option String) (st : DBState) :
    Except DBError (DBState × Bool) :=
  match jsonLoadsPushSub push_sub with
  | .error e => .error e
  | .ok normalized =>
    let h := hashFn session_id
    let count := (st.clients.filter (fun c => c.session_hash == h)).length
    let st1 := { st with clients := st.clients.map (fun c =>
      if c.session_hash == h then
        { c with push_sub := normalized, last_seen := now }
      else c) }
    let st2 :=
      if count != 0 && normalized.isNone then
        match st1.clients.find? (fun c => c.session_hash == h) with
        | some c => { st1 with push_queue := st1.push_queue.filter (fun r =>
            !(r.client_id == c.client_id)) }
        | none => st1
      else st1
    .ok (st2, count != 0)

/-- Selection of the first row of `ORDER BY retry_time` over a list of due
rows: a row of minimal `retry_time` (the earliest such row in table order,
one valid refinement of SQLite's unspecified tie order). -/
def selectMinRetry : List PushQueueRow → Option PushQueueRow
  | [] => none
  | r :: rs =>
    match selectMinRetry rs with
    | none => some r
    | some m => if r.retry_time ≤ m.retry_time then some r else some m

/-- `DB.push_queue_next` (db.py:524-557): pick a due row (`retry_time ≤ now`)
of smallest `retry_time`, LEFT JOIN the client, bump the lease
(`retry_time = now + retry_timeout`, stored `retries` becomes `retries + 1`),
and return the item. The returned record carries `retries=retries` — the value
read before the bump. -/
def push_queue_next (now retry_timeout : Int) (st : DBState) :
    Except DBError (DBState × Option PushQueueItemRec) :=
  let due := st.push_queue.filter (fun r => decide (r.retry_time ≤ now))
  match selectMinRetry due with
  | none => .ok (st, none)
  | some r =>
    let cli := st.clients.find? (fun c => c.client_id == r.client_id)
    let st1 := { st with push_queue := st.push_queue.map (fun x =>
      if x.id == r.id then
        { x with retry_time := now + retry_timeout, retries := r.retries + 1 }
      else x) }
    .ok (st1, some
      { id := r.id, client_id := r.client_id,
        push_info := { push_sub := cli.bind (fun c => c.push_sub),
                       vapid_priv := cli.map (fun c => c.vapid_priv) },
        message := r.message, retries := r.retries })

/-- `MAX_NOTIFY_CHARS` (db.py:25). -/
def MAX_NOTIFY_CHARS : Nat := 128

/-- The notification payload built inside `DB.insert_ad` (db.py:674-685):
`json.dumps(dict(adQueryId=…, nickname=…, ad=dict(id=…, accountName=…,
accountUrl=…, text=text[:MAX_NOTIFY_CHARS])))`, modelled structurally. -/
def notifyMessage (ad_query_id : Nat) (nickname id account_name account_url
    text : String) : NotifyMessage :=
  { adQueryId := ad_query_id, nickname, adId := id,
    accountName := account_name, accountUrl := account_url,
    adText := text.take MAX_NOTIFY_CHARS }

/-- `DB.insert_ad` (db.py:597-704). Returns `false` when the ad query is gone;
otherwise: upsert into `ad_content` (the `if not inserted` guard never fires,
since `execute_insert` returns the last-insert-rowid row of a successful
insert, which is always truthy); count fresh `ad_content_text` rows for
`(ad_query_id, text_hash)` (`last_seen > now - text_expiration`) in the
pre-upsert table; upsert the `ad_content_text` row with `last_seen = now`;
read `should_notify` (`last_notify IS NULL OR last_notify < now -
min_notify_interval`); when `count = 0` and `should_notify`, insert one
`push_queue` row (`retry_time = now`, `retries = 0`) per `client_subs` row of
this query whose client exists with a non-null `push_sub`, and set the query's
`last_notify = now`. Returns `true`. -/
def insert_ad (hashFn : String → String) (now : Int) (ad_query_id : Nat)
    (id account_name account_url : String) (start_date : Int) (text : String)
    (screenshot : List Nat) (text_expiration min_notify_interval : Int)
    (st : DBState) : Except DBError (DBState × Bool) :=
  match st.ad_queries.find? (fun r => r.ad_query_id == ad_query_id) with
  | none => .ok (st, false)
  | some qrow =>
    let text_hash := hashFn (pyLower text)
    let newRow : AdContentRow :=
      { rowid := st.next_ad_rowid, ad_query_id, id, account_name, account_url,
        start_date, last_seen := now, text_hash, text, screenshot }
    let st1 : DBState := { st with
      ad_content := (st.ad_content.filter (fun r =>
        !(r.ad_query_id == ad_query_id && r.id == id))) ++ [newRow],
      next_ad_rowid := st.next_ad_rowid + 1 }
    let count := (st.ad_content_text.filter (fun r =>
      r.ad_query_id == ad_query_id && r.text_hash == text_hash &&
        decide (r.last_seen > now - text_expiration))).length
    let newTextRow : AdContentTextRow :=
      { ad_query_id, text_hash, text, last_seen := now }
    let st2 : DBState := { st1 with ad_content_text :=
      (st1.ad_content_text.filter (fun r =>
        !(r.ad_query_id == ad_query_id && r.text_hash == text_hash))) ++
      [newTextRow] }
    let should_notify :=
      match qrow.last_notify with
      | none => true
      | some t => decide (t < now - min_notify_interval)
    if count == 0 && should_notify then
      let msg := notifyMessage ad_query_id qrow.nickname id account_name
        account_url text
      let eligible := st2.client_subs.filter (fun e =>
        e.ad_query_id == ad_query_id &&
          st2.clients.any (fun c =>
            c.client_id == e.client_id && c.push_sub.isSome))
      let newItems : List PushQueueRow := eligible.enum.map (fun p =>
        { id := st2.next_push_id + p.1, client_id := p.2.client_id,
          message := msg, retry_time := now, retries := 0 })
      let st3 : DBState := { st2 with
        push_queue := st2.push_queue ++ newItems,
        next_push_id := st2.next_push_id + eligible.length,
        ad_queries := st2.ad_queries.map (fun r =>
          if r.ad_query_id == ad_query_id then { r with last_notify := some now }
          else r) }
      .ok (st3, true)
    else
      .ok (st2, true)

/-- The comparison behind `ORDER BY last_seen DESC, start_date DESC` on
`ad_content` rows: `a` may precede `b` when its key pair is at least `b`'s in
the descending lexicographic order. -/
def adContentOrder (a b : AdContentRow) : Bool :=
  decide (b.last_seen < a.last_seen) ||
    (a.last_seen == b.last_seen && decide (b.start_date ≤ a.start_date))

/-- One iteration of the trimming loop in `DB.cleanup_ads` (db.py:716-727):
DELETE the rows of query `q` whose rowid falls beyond offset `max_ads` in
`(last_seen DESC, start_date DESC)` order. -/
def trimQuery (max_ads : Nat) (q : Nat) (tbl : List AdContentRow) :
    List AdContentRow :=
  let victims :=
    ((tbl.filter (fun r => r.ad_query_id == q)).mergeSort adContentOrder).drop
      max_ads
  let victimIds := victims.map (fun r => r.rowid)
  tbl.filter (fun r => !(victimIds.contains r.rowid))

/-- `DB.cleanup_ads` (db.py:706-745): first trim every query holding more than
`max_ads` rows (`GROUP BY ad_query_id HAVING COUNT(*) > ?`), then DELETE the
`ad_content_text` rows with `last_seen < now - text_expiration` for which no
`ad_content` row with the same `(ad_query_id, text_hash)` remains. -/
def cleanup_ads (now : Int) (max_ads : Nat) (text_expiration : Int)
    (st : DBState) : Except DBError (DBState × Unit) :=
  let large := ((st.ad_content.map (fun r => r.ad_query_id)).dedup).filter
    (fun q =>
      max_ads < (st.ad_content.filter (fun r => r.ad_query_id == q)).length)
  let trimmed := large.foldl (fun tbl q => trimQuery max_ads q tbl)
    st.ad_content
  let newText := st.ad_content_text.filter (fun r =>
    !(decide (r.last_seen < now - text_expiration) &&
      !(trimmed.any (fun c =>
        c.ad_query_id == r.ad_query_id && c.text_hash == r.text_hash))))
  .ok ({ st with ad_content := trimmed, ad_content_text := newText }, ())

/-- Record `SearchResult` (client.py dataclass); `start_date` and `text` are
nullable in the source, but the filtering claim touches neither nullability. -/
structure SearchResultRec where
  id : String
  account_name : String
  account_url : String
  start_date : Int
  text : String
  deriving DecidableEq, Repr

/-- Modelled from the spec: the intended filter contract — keep a
`SearchResult` exactly when the filter list is empty or some filter,
lowercased, occurs as a substring of the lowercased result text. Stated for
comparison with the code's `filterSearchResults`. -/
def specKeepResult (filters : List String) (text : String) : Bool :=
  filters.isEmpty || filters.any (fun f => pyInStr (pyLower f) (pyLower text))

/-- The list comprehension of `Server._query_loop` (server.py:301-306):
`[r for r in results if not len(filters) or any(x.tolower() in r.text.lower()
for x in filters)]`. Python strings have no method `tolower`, so as soon as
one result meets a non-empty filter list the comprehension raises
`AttributeError` (the left operand of `in` is evaluated first). -/
def filterSearchResults (filters : List String)
    (results : List SearchResultRec) : Except String (List SearchResultRec) :=
  match results with
  | [] => .ok []
  | _ :: _ =>
    if filters.isEmpty then .ok results
    else .error "AttributeError: str object has no attribute tolower"

/-- Outcome of one dispatcher iteration for a popped item: either
`push_queue_finish id unsub_client` is called, or the item is left leased. -/
inductive DispatchAction where
  | finish (unsub_client : Bool)
  | leave
  deriving DecidableEq, Repr

/-- The body of `Server._push_queue_loop` (server.py:257-281) after
`push_queue_next` returned `item`. `senderOk` models whether the underlying
`webpush` HTTP call would return 201. When `item.push_info.push_sub` is null,
`Notifier.notify` (notifier.py:20-29) raises `TypeError` from
`json.loads(None)` inside the executor before `webpush` is ever invoked, so
`success` stays `False` regardless of `senderOk`; the loop then calls
`push_queue_finish(item.id, unsub_client=not success)` only when `success` or
`item.retries >= max_message_retries`. -/
def dispatchStep (max_message_retries : Nat) (item : PushQueueItemRec)
    (senderOk : Bool) : DispatchAction :=
  let success := item.push_info.push_sub.isSome && senderOk
  if success || decide (item.retries ≥ max_message_retries) then
    .finish (!success)
  else
    .leave

/-! ## Fixtures: small concrete database states used by witnesses and
counterexamples. -/

/-- An empty notification payload used by fixture queue rows. -/
def msg0 : NotifyMessage :=
  { adQueryId := 0, nickname := "", adId := "", accountName := "",
    accountUrl := "", adText := "" }

/-- A client row fixture: client 1, session hash equal to its session id
(fixtures use the identity as the hash function). -/
def cli1 : ClientRow :=
  { client_id := 1, vapid_pub := "pub1", vapid_priv := "priv1",
    session_id := "sess1", session_hash := "sess1", push_sub := none,
    last_seen := 0 }

/-- A database holding exactly client 1 and nothing else. -/
def stClientOnly : DBState :=
  { DBState.empty with clients := [cli1], next_client_id := 2 }

/-! ## C5 — `toggle_ad_query_subscription` on an unknown ad query -/

/-- C5: the claim says `toggle_ad_query_subscription` returns false whenever
no `ad_queries` row with the given id exists. The code binds `exists` to a
cursor object, so the check is dead: with a known client, an absent ad query
(id 7) and `subscribed=false` the call returns true (claimed: false), and with
`subscribed=true` it raises `IntegrityError` from the foreign key (claimed:
returns false). The `if not exists: return False` line shows the claim is the
intent and the code a slip. -/
theorem c5_toggle_missing_query_divergence :
    stClientOnly.ad_queries = [] ∧
    toggle_ad_query_subscription (fun s => s) 7 "sess1" false stClientOnly =
      .ok (stClientOnly, true) ∧
    toggle_ad_query_subscription (fun s => s) 7 "sess1" true stClientOnly =
      .error (.integrityError "FOREIGN KEY constraint failed") := by
  refine ⟨rfl, ?_, ?_⟩ <;> rfl

/-! ## C6 — crawl-pass filtering -/

/-- A search result fixture whose text matches the filter `"sale"` after
lowercasing. -/
def srSale : SearchResultRec :=
  { id := "1", account_name := "acct", account_url := "url", start_date := 0,
    text := "SALE today" }

/-- C6: the claim says a fetched result is kept iff the filter list is empty
or some lowercased filter occurs in the lowercased text. The code's
comprehension calls `x.tolower()` — a method Python strings do not have — so
any non-empty filter list raises `AttributeError` on the first result instead
of keeping it (the intended contract, `specKeepResult`, would keep it); only
the empty-filter branch behaves as claimed. -/
theorem c6_filter_tolower_divergence :
    filterSearchResults ["sale"] [srSale] =
      .error "AttributeError: str object has no attribute tolower" ∧
    specKeepResult ["sale"] srSale.text = true ∧
    filterSearchResults [] [srSale] = .ok [srSale] := by
  refine ⟨rfl, ?_, rfl⟩
  decide

/-! ## C7 — dispatcher handling of a null `push_sub` -/

/-- A leased queue item fixture whose client has no push subscription and
which has never been retried. -/
def itemNullSub : PushQueueItemRec :=
  { id := 1, client_id := 1,
    push_info := { push_sub := none, vapid_priv := some "priv1" },
    message := msg0, retries := 0 }

/-- A queue item like `itemNullSub` but already at three retries. -/
def itemNullSubHi : PushQueueItemRec :=
  { itemNullSub with retries := 3 }

/-- C7 counterexample: the claim says that whenever `push_queue_next` returns
an item with null `push_sub` the dispatcher immediately calls
`push_queue_finish(id, unsub_client=true)`. The loop has no such branch: with
`max_message_retries = 3` and `retries = 0` the failed notify just leaves the
item leased (no finish call at all), whatever the sender would have done. -/
theorem c7_dispatch_null_sub_counterexample :
    itemNullSub.push_info.push_sub = none ∧
    dispatchStep 3 itemNullSub true = .leave ∧
    dispatchStep 3 itemNullSub false = .leave := by
  refine ⟨rfl, rfl, rfl⟩

/-- C7 (amended): for an item with null `push_sub`, the notify call fails
before the WebPushSender is invoked (the outcome is independent of the
sender), and the dispatcher calls `push_queue_finish(id, unsub_client=true)`
exactly when `retries ≥ max_message_retries`; otherwise it leaves the item
leased. -/
theorem c7_dispatch_null_sub_spec (maxR : Nat) (item : PushQueueItemRec)
    (sOk : Bool) (h : item.push_info.push_sub = none) :
    dispatchStep maxR item sOk =
      (if maxR ≤ item.retries then .finish true else .leave) ∧
    dispatchStep maxR item sOk = dispatchStep maxR item (!sOk) := by
  unfold dispatchStep
  simp [h, ge_iff_le]

/-- C7 witness: at `retries = 3 ≥ max_message_retries = 3` the amended rule
yields `finish true`. -/
theorem c7_dispatch_null_sub_witness :
    (dispatchStep 3 itemNullSubHi true =
      (if 3 ≤ itemNullSubHi.retries then .finish true else .leave) ∧
     dispatchStep 3 itemNullSubHi true = dispatchStep 3 itemNullSubHi false) :=
  c7_dispatch_null_sub_spec 3 itemNullSubHi true rfl

/-! ## C3 — `push_queue_next` lease semantics -/

/-- Helper: `selectMinRetry` is `none` exactly on the empty list. -/
theorem selectMinRetry_eq_none {l : List PushQueueRow} :
    selectMinRetry l = none ↔ l = [] := by
  cases l with
  | nil => simp [selectMinRetry]
  | cons r rs =>
    rw [selectMinRetry]
    cases hrs : selectMinRetry rs with
    | none => simp
    | some m => by_cases h' : r.retry_time ≤ m.retry_time <;> simp [h']

/-- Helper: `selectMinRetry` returns an element of its input list that
minimizes `retry_time`. -/
theorem selectMinRetry_mem_min {l : List PushQueueRow} {m : PushQueueRow}
    (h : selectMinRetry l = some m) :
    m ∈ l ∧ ∀ x ∈ l, m.retry_time ≤ x.retry_time := by
  induction l generalizing m with
  | nil => simp [selectMinRetry] at h
  | cons r rs ih =>
    rw [selectMinRetry] at h
    cases hrs : selectMinRetry rs with
    | none =>
      rw [hrs] at h
      have hrs' : rs = [] := selectMinRetry_eq_none.mp hrs
      subst hrs'
      change some r = some m at h
      cases h
      exact ⟨by simp, by simp⟩
    | some m' =>
      rw [hrs] at h
      change (if r.retry_time ≤ m'.retry_time then some r else some m') =
        some m at h
      obtain ⟨hmem', hmin'⟩ := ih hrs
      by_cases hle : r.retry_time ≤ m'.retry_time
      · rw [if_pos hle] at h
        cases h
        refine ⟨List.mem_cons_self _ _, ?_⟩
        intro x hx
        rcases List.mem_cons.mp hx with hx | hx
        · subst hx; exact le_rfl
        · exact le_trans hle (hmin' x hx)
      · rw [if_neg hle] at h
        cases h
        refine ⟨List.mem_cons_of_mem _ hmem', ?_⟩
        intro x hx
        rcases List.mem_cons.mp hx with hx | hx
        · subst hx; exact le_of_lt (lt_of_not_le hle)
        · exact hmin' x hx

/-- A due queue row fixture (row 1, never retried, due since time 0). -/
def pqRow1 : PushQueueRow :=
  { id := 1, client_id := 1, message := msg0, retry_time := 0, retries := 0 }

/-- A database holding client 1 and the single due queue row `pqRow1`. -/
def stOneDue : DBState :=
  { stClientOnly with push_queue := [pqRow1], next_push_id := 2 }

/-- The state after leasing `pqRow1` at time 5 with a 30-second timeout. -/
def stOneDueAfter : DBState :=
  { stOneDue with push_queue := [{ pqRow1 with retry_time := 35, retries := 1 }] }

/-- The item `push_queue_next` returns for `stOneDue`: note `retries = 0`. -/
def itemPreBump : PushQueueItemRec :=
  { id := 1, client_id := 1,
    push_info := { push_sub := none, vapid_priv := some "priv1" },
    message := msg0, retries := 0 }

/-- C3 counterexample: the claim says the `retries` field of the returned item
is the already-incremented count. Leasing the fixture row bumps the stored
count to 1 but the returned record carries `retries = 0` (db.py:557 returns
the value read before the UPDATE), so returned ≠ stored-after-lease. -/
theorem c3_retries_counterexample :
    push_queue_next 5 30 stOneDue = .ok (stOneDueAfter, some itemPreBump) ∧
    itemPreBump.retries = 0 ∧
    stOneDueAfter.push_queue.map (fun r => r.retries) = [1] ∧
    itemPreBump.retries ≠ 1 := by
  refine ⟨rfl, rfl, rfl, by decide⟩

/-- C3 (amended): `push_queue_next` returns null exactly when no row is due
(`retry_time ≤ now`); otherwise it picks a due row of smallest `retry_time`,
rewrites that row with `retry_time = now + retry_timeout` and stored retries
incremented by one, and the returned item carries the row's data with the
**pre-increment** retry count. -/
theorem c3_push_queue_next_spec (now retry_timeout : Int) (st st' : DBState)
    (res : Option PushQueueItemRec)
    (hrun : push_queue_next now retry_timeout st = .ok (st', res)) :
    (res = none ↔ ∀ r ∈ st.push_queue, ¬ r.retry_time ≤ now) ∧
    (res = none → st' = st) ∧
    (∀ item, res = some item →
      ∃ r ∈ st.push_queue, r.retry_time ≤ now ∧
        (∀ x ∈ st.push_queue, x.retry_time ≤ now →
          r.retry_time ≤ x.retry_time) ∧
        item.id = r.id ∧ item.client_id = r.client_id ∧
        item.message = r.message ∧ item.retries = r.retries ∧
        st'.push_queue = st.push_queue.map (fun x =>
          if x.id == r.id then
            { x with retry_time := now + retry_timeout,
                     retries := r.retries + 1 }
          else x)) := by
  rw [push_queue_next] at hrun
  cases hsel : selectMinRetry
      (st.push_queue.filter (fun r => decide (r.retry_time ≤ now))) with
  | none =>
    rw [hsel] at hrun
    have hnil := selectMinRetry_eq_none.mp hsel
    rw [List.filter_eq_nil_iff] at hnil
    cases hrun
    refine ⟨?_, fun _ => rfl, ?_⟩
    · simp only [true_iff]
      intro r hr
      simpa using hnil r hr
    · intro item hitem
      cases hitem
  | some r =>
    rw [hsel] at hrun
    obtain ⟨hmem, hmin⟩ := selectMinRetry_mem_min hsel
    rw [List.mem_filter] at hmem
    obtain ⟨hmemq, hdue⟩ := hmem
    cases hrun
    refine ⟨?_, ?_, ?_⟩
    · constructor
      · intro h
        cases h
      · intro hall
        exact absurd (of_decide_eq_true hdue) (hall r hmemq)
    · intro h
      cases h
    · intro item hitem
      cases hitem
      refine ⟨r, hmemq, of_decide_eq_true hdue, ?_, rfl, rfl, rfl, rfl, rfl⟩
      intro x hx hxdue
      exact hmin x (List.mem_filter.mpr ⟨hx, decide_eq_true hxdue⟩)

/-- C3 witness: the amended lease rule applied to the concrete fixture
`stOneDue` at time 5. -/
theorem c3_push_queue_next_witness :
    ((some itemPreBump = none ↔
        ∀ r ∈ stOneDue.push_queue, ¬ r.retry_time ≤ (5 : Int)) ∧
     (some itemPreBump = none → stOneDueAfter = stOneDue) ∧
     (∀ item, some itemPreBump = some item →
       ∃ r ∈ stOneDue.push_queue, r.retry_time ≤ (5 : Int) ∧
         (∀ x ∈ stOneDue.push_queue, x.retry_time ≤ (5 : Int) →
           r.retry_time ≤ x.retry_time) ∧
         item.id = r.id ∧ item.client_id = r.client_id ∧
         item.message = r.message ∧ item.retries = r.retries ∧
         stOneDueAfter.push_queue = stOneDue.push_queue.map (fun x =>
           if x.id == r.id then
             { x with retry_time := (5 : Int) + 30,
                      retries := r.retries + 1 }
           else x))) :=
  c3_push_queue_next_spec 5 30 stOneDue stOneDueAfter (some itemPreBump) rfl

/-! ## C8 — nickname collisions -/

/-- An ad query fixture holding the nickname `"taken"`. -/
def qTaken : AdQueryRow :=
  { ad_query_id := 1, nickname := "taken", query := "shoes", filters := [],
    next_pull := 0, last_pull := none, last_error := none, last_notify := none }

/-- A second ad query fixture with nickname `"mine"`. -/
def qMine : AdQueryRow :=
  { qTaken with ad_query_id := 2, nickname := "mine" }

/-- A database holding the two query fixtures. -/
def stTwoQueries : DBState :=
  { DBState.empty with ad_queries := [qTaken, qMine], next_ad_query_id := 3 }

/-- The colliding insert argument. -/
def qInsTaken : AdQueryBase :=
  { nickname := "taken", query := "other", filters := [] }

/-- The colliding update argument: rename query 2 to the taken nickname. -/
def qUpdTaken : AdQueryResultRec :=
  { nickname := "taken", query := "other", filters := [], ad_query_id := 2,
    subscribed := false }

/-- C8 counterexample: the claim says `insert_ad_query` surfaces a nickname
collision as `DataArgument("name is already in use")`. Only `update_ad_query`
catches the engine error (db.py:325-327); `insert_ad_query` (db.py:270-301)
has no handler, so the collision propagates as the raw
`sqlite3.IntegrityError`. -/
theorem c8_insert_integrity_counterexample :
    insert_ad_query (fun s => s) 0 qInsTaken none stTwoQueries =
      .error (.integrityError "UNIQUE constraint failed: ad_queries.nickname") ∧
    insert_ad_query (fun s => s) 0 qInsTaken none stTwoQueries ≠
      .error (.dataArgument "name is already in use") := by
  refine ⟨rfl, ?_⟩
  intro h
  rw [show insert_ad_query (fun s => s) 0 qInsTaken none stTwoQueries =
    .error (.integrityError "UNIQUE constraint failed: ad_queries.nickname")
    from rfl] at h
  simp at h

/-- C8 (amended): on a nickname collision, `update_ad_query` (when the target
row exists and a different query holds the nickname) raises
`DataArgument("name is already in use")`, while `insert_ad_query` (when it
reaches the INSERT, i.e. any requested subscriber lookup succeeds) raises the
uncaught `sqlite3.IntegrityError`; in both cases the transaction rolls back
and the database is unchanged. -/
theorem c8_nickname_collision_spec (hashFn : String → String) (now : Int)
    (q : AdQueryBase) (qr : AdQueryResultRec) (sid : String)
    (sub : Option String) (st : DBState)
    (hq : st.ad_queries.any (fun r => r.nickname == q.nickname) = true)
    (hsub : ∀ s, sub = some s → s ≠ "" →
      (st.clients.find? (fun c => c.session_hash == hashFn s)).isSome = true)
    (hqr : st.ad_queries.any (fun r => r.ad_query_id == qr.ad_query_id) = true)
    (hqrn : st.ad_queries.any (fun r =>
      r.nickname == qr.nickname && !(r.ad_query_id == qr.ad_query_id)) = true) :
    insert_ad_query hashFn now q sub st =
      .error (.integrityError "UNIQUE constraint failed: ad_queries.nickname") ∧
    update_ad_query hashFn now qr sid st =
      .error (.dataArgument "name is already in use") ∧
    (runTxn (insert_ad_query hashFn now q sub) st).1 = st ∧
    (runTxn (update_ad_query hashFn now qr sid) st).1 = st := by
  have hrows : ∀ sc, insertAdQueryRows now q sc st =
      .error (.integrityError "UNIQUE constraint failed: ad_queries.nickname") := by
    intro sc
    rw [insertAdQueryRows, if_pos hq]
  have hins : insert_ad_query hashFn now q sub st =
      .error (.integrityError "UNIQUE constraint failed: ad_queries.nickname") := by
    cases sub with
    | none => exact hrows none
    | some s =>
      by_cases hs : s = ""
      · subst hs
        exact hrows none
      · have hstep : insert_ad_query hashFn now q (some s) st =
            (match st.clients.find? (fun c => c.session_hash == hashFn s) with
             | none => .ok (st, none)
             | some c => insertAdQueryRows now q (some c.client_id) st) := by
          unfold insert_ad_query
          simp only [if_neg hs]
        obtain ⟨c, hc⟩ := Option.isSome_iff_exists.mp (hsub s rfl hs)
        rw [hstep, hc]
        exact hrows (some c.client_id)
  have hupd : update_ad_query hashFn now qr sid st =
      .error (.dataArgument "name is already in use") := by
    unfold update_ad_query
    simp only [hqr, hqrn, Bool.and_self, if_true]
  refine ⟨hins, hupd, ?_, ?_⟩
  · rw [runTxn, hins]
  · rw [runTxn, hupd]

/-- C8 witness: the amended contract applied at the two-query fixture. -/
theorem c8_nickname_collision_witness :
    (insert_ad_query (fun s => s) 0 qInsTaken none stTwoQueries =
      .error (.integrityError "UNIQUE constraint failed: ad_queries.nickname") ∧
     update_ad_query (fun s => s) 0 qUpdTaken "nobody" stTwoQueries =
      .error (.dataArgument "name is already in use") ∧
     (runTxn (insert_ad_query (fun s => s) 0 qInsTaken none) stTwoQueries).1 =
       stTwoQueries ∧
     (runTxn (update_ad_query (fun s => s) 0 qUpdTaken "nobody")
       stTwoQueries).1 = stTwoQueries) :=
  c8_nickname_collision_spec (fun s => s) 0 qInsTaken qUpdTaken "nobody" none
    stTwoQueries (by decide) (fun s h => nomatch h) (by decide) (by decide)

/-! ## C4 — cascades of `delete_ad_query` -/

/-- C4 chain, step 1: create a session (fixtures hash with the identity). -/
def c4Step1 : DBState × Except DBError Unit :=
  runTxn (create_session (fun s => s) 0 "pub1" "priv1" "sess1") DBState.empty

/-- C4 chain, step 2: register a push subscription for the client. -/
def c4Step2 : DBState × Except DBError Bool :=
  runTxn (update_client_push_sub (fun s => s) 1 "sess1"
    (some "endpoint-blob")) c4Step1.1

/-- C4 chain, step 3: insert ad query 1 with the client subscribed. -/
def c4Step3 : DBState × Except DBError (Option Nat) :=
  runTxn (insert_ad_query (fun s => s) 2
    { nickname := "nick", query := "shoes", filters := [] }
    (some "sess1")) c4Step2.1

/-- C4 chain, step 4: insert a novel ad, which fans out one queue item. -/
def c4Step4 : DBState × Except DBError Bool :=
  runTxn (insert_ad (fun s => s) 10 1 "ad1" "acct" "url" 3 "Ad Text" []
    3600 300) c4Step3.1

/-- C4 chain, step 5: delete ad query 1. -/
def c4Step5 : DBState × Except DBError Bool :=
  runTxn (delete_ad_query 1) c4Step4.1

/-- C4 counterexample: the claim says that after `delete_ad_query(Q)` returns
true there are zero PushQueueItems holding notifications enqueued for Q. The
`push_queue` table references only `clients`, so the item enqueued for query 1
in step 4 survives the deletion in step 5 (while subscriptions, content and
text rows for the query are indeed gone and the client remains). -/
theorem c4_queued_push_survives_counterexample :
    c4Step1.2 = .ok () ∧ c4Step2.2 = .ok true ∧ c4Step3.2 = .ok (some 1) ∧
    c4Step4.2 = .ok true ∧ c4Step5.2 = .ok true ∧
    c4Step4.1.push_queue.map (fun r => r.message.adQueryId) = [1] ∧
    (c4Step5.1.push_queue.filter
      (fun r => r.message.adQueryId == 1)).length = 1 := by
  decide

/-- C4 (amended): after `delete_ad_query(Q)` returns true there are zero
ClientSubscription, AdContent and AdContentText rows referring to Q and all
Client rows remain, but the push queue is untouched: PushQueueItems already
enqueued for Q (which reference only their client) survive the deletion. -/
theorem c4_delete_ad_query_spec (id : Nat) (st st' : DBState) (ok : Bool)
    (hrun : delete_ad_query id st = .ok (st', ok)) (hok : ok = true) :
    (∀ e ∈ st'.client_subs, e.ad_query_id ≠ id) ∧
    (∀ r ∈ st'.ad_content, r.ad_query_id ≠ id) ∧
    (∀ r ∈ st'.ad_content_text, r.ad_query_id ≠ id) ∧
    st'.clients = st.clients ∧
    st'.push_queue = st.push_queue := by
  rw [delete_ad_query] at hrun
  cases hrun
  refine ⟨?_, ?_, ?_, rfl, rfl⟩ <;>
    · intro e he
      have := (List.mem_filter.mp he).2
      simpa using this

/-- C4 witness: the amended contract applied to the concrete chain state. -/
theorem c4_delete_ad_query_witness :
    ((∀ e ∈ c4Step5.1.client_subs, e.ad_query_id ≠ 1) ∧
     (∀ r ∈ c4Step5.1.ad_content, r.ad_query_id ≠ 1) ∧
     (∀ r ∈ c4Step5.1.ad_content_text, r.ad_query_id ≠ 1) ∧
     c4Step5.1.clients = c4Step4.1.clients ∧
     c4Step5.1.push_queue = c4Step4.1.push_queue) :=
  c4_delete_ad_query_spec 1 c4Step4.1 c4Step5.1 true
    (by set_option maxRecDepth 4000 in decide) rfl

/-! ## C9, C10 — `update_client_push_sub` -/

/-- The per-client update performed by the UPDATE statement of
`update_client_push_sub`: a row matching the session hash gets the normalized
`push_sub` and `last_seen = now`; other rows are untouched. -/
def pushSubUpd (h : String) (norm : Option String) (now : Int) :
    ClientRow → ClientRow :=
  fun c =>
    if c.session_hash == h then { c with push_sub := norm, last_seen := now }
    else c

/-- Helper: `pushSubUpd` never changes `session_hash`. -/
theorem pushSubUpd_session_hash (h : String) (norm : Option String) (now : Int)
    (c : ClientRow) : (pushSubUpd h norm now c).session_hash = c.session_hash := by
  unfold pushSubUpd
  split <;> rfl

/-- Helper: `pushSubUpd` never changes `client_id`. -/
theorem pushSubUpd_client_id (h : String) (norm : Option String) (now : Int)
    (c : ClientRow) : (pushSubUpd h norm now c).client_id = c.client_id := by
  unfold pushSubUpd
  split <;> rfl

/-- Helper: the body of `update_client_push_sub` once the `json.loads` step is
known to produce `norm`, written without let-bindings. -/
theorem update_client_push_sub_unfold (hashFn : String → String) (now : Int)
    (sid s : String) (norm : Option String) (st : DBState)
    (hj : jsonLoadsPushSub (some s) = .ok norm) :
    update_client_push_sub hashFn now sid (some s) st =
      .ok
        ((if ((st.clients.filter
              (fun c => c.session_hash == hashFn sid)).length != 0)
            && norm.isNone then
          match (st.clients.map (pushSubUpd (hashFn sid) norm now)).find?
              (fun c => c.session_hash == hashFn sid) with
          | some c =>
            { st with
              clients := st.clients.map (pushSubUpd (hashFn sid) norm now),
              push_queue := st.push_queue.filter (fun r =>
                !(r.client_id == c.client_id)) }
          | none =>
            { st with
              clients := st.clients.map (pushSubUpd (hashFn sid) norm now) }
         else
          { st with
            clients := st.clients.map (pushSubUpd (hashFn sid) norm now) }),
         ((st.clients.filter
            (fun c => c.session_hash == hashFn sid)).length != 0)) := by
  unfold update_client_push_sub
  rw [hj]
  rfl

/-- Helper: a non-zero filter length is the existence of a member satisfying
the predicate. -/
theorem filter_length_ne_zero {α : Type} {p : α → Bool} {l : List α} :
    ((l.filter p).length != 0) = true ↔ ∃ x ∈ l, p x = true := by
  rw [bne_iff_ne, ← Nat.pos_iff_ne_zero, List.length_pos]
  constructor
  · intro h
    match hl : l.filter p with
    | [] => exact absurd hl h
    | x :: xs =>
      have hx : x ∈ l.filter p := by rw [hl]; exact List.mem_cons_self _ _
      obtain ⟨hxl, hxp⟩ := List.mem_filter.mp hx
      exact ⟨x, hxl, hxp⟩
  · rintro ⟨x, hxl, hxp⟩ hnil
    have hx : x ∈ l.filter p := List.mem_filter.mpr ⟨hxl, hxp⟩
    rw [hnil] at hx
    cases hx

/-- Helper: the clients table after a successful `update_client_push_sub` is
the mapped table, in every branch. -/
theorem update_client_push_sub_clients (hashFn : String → String) (now : Int)
    (sid s : String) (norm : Option String) (st st' : DBState) (found : Bool)
    (hj : jsonLoadsPushSub (some s) = .ok norm)
    (hrun : update_client_push_sub hashFn now sid (some s) st =
      .ok (st', found)) :
    st'.clients = st.clients.map (pushSubUpd (hashFn sid) norm now) := by
  rw [update_client_push_sub_unfold hashFn now sid s norm st hj] at hrun
  have hst' := congrArg Prod.fst (Except.ok.inj hrun)
  simp only at hst'
  rw [← hst']
  split
  · split <;> rfl
  · rfl

/-- Helper: after a successful `update_client_push_sub`, every client row
matching the session hash carries the normalized value and `last_seen = now`. -/
theorem update_client_push_sub_matching (hashFn : String → String) (now : Int)
    (sid s : String) (norm : Option String) (st st' : DBState) (found : Bool)
    (hj : jsonLoadsPushSub (some s) = .ok norm)
    (hrun : update_client_push_sub hashFn now sid (some s) st =
      .ok (st', found)) :
    ∀ c' ∈ st'.clients, c'.session_hash = hashFn sid →
      c'.last_seen = now ∧ c'.push_sub = norm := by
  intro c' hc' hhash
  rw [update_client_push_sub_clients hashFn now sid s norm st st' found hj
    hrun] at hc'
  obtain ⟨c, hc, hfc⟩ := List.mem_map.mp hc'
  by_cases hch : (c.session_hash == hashFn sid) = true
  · have hceq : c' = { c with push_sub := norm, last_seen := now } := by
      rw [← hfc]
      unfold pushSubUpd
      rw [if_pos hch]
    rw [hceq]
    exact ⟨rfl, rfl⟩
  · have hceq : c' = c := by
      rw [← hfc]
      unfold pushSubUpd
      rw [if_neg hch]
    rw [hceq] at hhash
    exact absurd (beq_iff_eq.mpr hhash) hch

/-- Helper: `jsonLoadsPushSub` yields the null normalization exactly on text
that strips to the JSON literal `null`. -/
theorem jsonLoadsPushSub_none_iff {s : String} {norm : Option String}
    (hj : jsonLoadsPushSub (some s) = .ok norm) :
    norm = none ↔ jsonStrip s = "null" := by
  rw [jsonLoadsPushSub] at hj
  by_cases h0 : jsonStrip s = ""
  · rw [if_pos h0] at hj
    cases hj
  · rw [if_neg h0] at hj
    by_cases h1 : jsonStrip s = "null"
    · rw [if_pos h1] at hj
      cases hj
      simp [h1]
    · rw [if_neg h1] at hj
      cases hj
      simp [h1]

/-- C9: `update_client_push_sub` returns true exactly when a client with the
session hash exists; every matching client gets `last_seen = now` and the
normalized value stored; the JSON literal `null` is stored as database null;
and when the stored value is null the matched client's queued pushes are all
deleted in the same call. The hypotheses are the schema's UNIQUE(session_hash)
constraint and that the text decodes (the HTTP layer validates it). -/
theorem c9_update_client_push_sub_spec (hashFn : String → String) (now : Int)
    (sid s : String) (norm : Option String) (st st' : DBState) (found : Bool)
    (hu : ∀ c1 ∈ st.clients, ∀ c2 ∈ st.clients,
      c1.session_hash = c2.session_hash → c1 = c2)
    (hj : jsonLoadsPushSub (some s) = .ok norm)
    (hrun : update_client_push_sub hashFn now sid (some s) st =
      .ok (st', found)) :
    (found = true ↔ ∃ c ∈ st.clients, c.session_hash = hashFn sid) ∧
    (∀ c' ∈ st'.clients, c'.session_hash = hashFn sid →
      c'.last_seen = now ∧ c'.push_sub = norm) ∧
    (jsonStrip s = "null" → norm = none) ∧
    (norm = none → ∀ r ∈ st'.push_queue, ∀ c ∈ st.clients,
      c.session_hash = hashFn sid → r.client_id ≠ c.client_id) := by
  have hmatch := update_client_push_sub_matching hashFn now sid s norm st st'
    found hj hrun
  have hnorm_iff := jsonLoadsPushSub_none_iff hj
  rw [update_client_push_sub_unfold hashFn now sid s norm st hj] at hrun
  have hpair := Except.ok.inj hrun
  have hst' := congrArg Prod.fst hpair
  have hfound := congrArg Prod.snd hpair
  simp only at hst' hfound
  refine ⟨?_, hmatch, fun hs => hnorm_iff.mpr hs, ?_⟩
  · rw [← hfound, filter_length_ne_zero]
    constructor
    · rintro ⟨c, hc, hcp⟩
      exact ⟨c, hc, beq_iff_eq.mp hcp⟩
    · rintro ⟨c, hc, hcp⟩
      exact ⟨c, hc, beq_iff_eq.mpr hcp⟩
  · intro hnorm r hr c hc hch
    subst hnorm
    by_cases hcond : ((st.clients.filter
        (fun c => c.session_hash == hashFn sid)).length != 0) = true
    · rw [← hst'] at hr
      simp only [hcond, Option.isNone_none, Bool.and_true, if_true] at hr
      have hex : ∃ x ∈ st.clients.map (pushSubUpd (hashFn sid) none now),
          (x.session_hash == hashFn sid) = true := by
        refine ⟨pushSubUpd (hashFn sid) none now c,
          List.mem_map_of_mem _ hc, ?_⟩
        rw [pushSubUpd_session_hash]
        exact beq_iff_eq.mpr hch
      obtain ⟨c0, hfind⟩ := Option.isSome_iff_exists.mp
        (List.find?_isSome.mpr hex)
      rw [hfind] at hr
      have hrne := (List.mem_filter.mp hr).2
      have hc0mem := List.mem_of_find?_eq_some hfind
      have hc0p := List.find?_some hfind
      obtain ⟨c2, hc2, hfc2⟩ := List.mem_map.mp hc0mem
      have hc2hash : c2.session_hash = hashFn sid := by
        rw [← pushSubUpd_session_hash (hashFn sid) none now c2, hfc2]
        exact beq_iff_eq.mp hc0p
      have hceq : c = c2 := hu c hc c2 hc2 (by rw [hch, hc2hash])
      have hid : c0.client_id = c.client_id := by
        rw [← hfc2, pushSubUpd_client_id, ← hceq]
      intro habs
      rw [← habs] at hid
      simp [hid] at hrne
    · exact absurd ((@filter_length_ne_zero ClientRow
        (fun c => c.session_hash == hashFn sid) st.clients).mpr
        ⟨c, hc, beq_iff_eq.mpr hch⟩) hcond

/-- A client fixture with a registered push subscription. -/
def cliSub : ClientRow := { cli1 with push_sub := some "endpoint-blob" }

/-- A database with the subscribed client 1 and one queued item for it. -/
def stCliSub : DBState :=
  { DBState.empty with
    clients := [cliSub], next_client_id := 2
    push_queue := [pqRow1], next_push_id := 2 }

/-- The state after clearing client 1's push subscription at time 7. -/
def stCliSubCleared : DBState :=
  { stCliSub with
    clients := [{ cliSub with push_sub := none, last_seen := 7 }],
    push_queue := [] }

/-- C9 witness: the contract applied to a concrete clearing call with the
JSON text `"null"` on a database holding one matching client and one queued
push. -/
theorem c9_update_client_push_sub_witness :
    ((true = true ↔ ∃ c ∈ stCliSub.clients, c.session_hash = "sess1") ∧
     (∀ c' ∈ stCliSubCleared.clients, c'.session_hash = "sess1" →
       c'.last_seen = 7 ∧ c'.push_sub = none) ∧
     (jsonStrip "null" = "null" → (none : Option String) = none) ∧
     ((none : Option String) = none → ∀ r ∈ stCliSubCleared.push_queue,
       ∀ c ∈ stCliSub.clients, c.session_hash = "sess1" →
         r.client_id ≠ c.client_id)) :=
  c9_update_client_push_sub_spec (fun s => s) 7 "sess1" "null" none stCliSub
    stCliSubCleared true (by decide) (by decide) (by decide)

/-- C10 counterexample: the claim says clearing a push subscription succeeds
only with the four-character JSON string `"null"`. `json.loads` accepts
whitespace around any JSON document, so the five-character text `" null"`
also decodes to null: the call succeeds, stores a database null and drops the
client's queued pushes. -/
theorem c10_whitespace_null_counterexample :
    update_client_push_sub (fun s => s) 7 "sess1" (some " null") stCliSub =
      .ok (stCliSubCleared, true) ∧
    (" null" : String) ≠ "null" ∧
    (∀ c' ∈ stCliSubCleared.clients, c'.push_sub = none) := by
  decide

/-- C10 (amended): calling the store operation with the host-language null —
what the HTTP layer passes when the `push_sub` query argument is empty —
raises `TypeError` from `json.loads(None)` before any database write, and the
transaction wrapper leaves the database unchanged; a successful textual call
stores a null subscription for the matching client exactly when the text
strips to the JSON literal `null` (the four-character string, possibly
surrounded by whitespace). -/
theorem c10_update_push_sub_none_spec (hashFn : String → String) (now : Int)
    (sid s : String) (norm : Option String) (st st' : DBState) (found : Bool)
    (hj : jsonLoadsPushSub (some s) = .ok norm)
    (hrun : update_client_push_sub hashFn now sid (some s) st =
      .ok (st', found)) :
    update_client_push_sub hashFn now sid none st = .error .typeError ∧
    (runTxn (update_client_push_sub hashFn now sid none) st).1 = st ∧
    (∀ c' ∈ st'.clients, c'.session_hash = hashFn sid →
      (c'.push_sub = none ↔ jsonStrip s = "null")) := by
  refine ⟨rfl, rfl, ?_⟩
  intro c' hc' hhash
  have hps := (update_client_push_sub_matching hashFn now sid s norm st st'
    found hj hrun c' hc' hhash).2
  rw [hps]
  exact jsonLoadsPushSub_none_iff hj

/-- C10 witness: the amended contract applied at the whitespace-padded
clearing call on the concrete one-client database. -/
theorem c10_update_push_sub_none_witness :
    (update_client_push_sub (fun s => s) 7 "sess1" none stCliSub =
      .error .typeError ∧
     (runTxn (update_client_push_sub (fun s => s) 7 "sess1" none)
       stCliSub).1 = stCliSub ∧
     (∀ c' ∈ stCliSubCleared.clients, c'.session_hash = "sess1" →
       (c'.push_sub = none ↔ jsonStrip " null" = "null"))) :=
  c10_update_push_sub_none_spec (fun s => s) 7 "sess1" " null" none stCliSub
    stCliSubCleared true (by decide) (by decide)

/-! ## C1 — `insert_ad` fan-out -/

/-- The `last_notify = now` write of `insert_ad` (db.py:698-703), per row. -/
def setLastNotify (qid : Nat) (now : Int) : AdQueryRow → AdQueryRow :=
  fun r =>
    if r.ad_query_id == qid then { r with last_notify := some now } else r

/-- The `client_subs` rows selected by the fan-out INSERT of `insert_ad`
(db.py:686-697): the subscriptions of the query whose client exists with a
non-null `push_sub`. -/
def eligibleSubs (qid : Nat) (st : DBState) : List ClientSubRow :=
  st.client_subs.filter (fun e =>
    e.ad_query_id == qid &&
      st.clients.any (fun c => c.client_id == e.client_id && c.push_sub.isSome))

/-- The queue rows inserted by the fan-out INSERT of `insert_ad`: one row per
selected subscription, each with the canonical payload, `retry_time = now`
and `retries = 0`. -/
def fanoutItems (now : Int) (msg : NotifyMessage)
    (basePushId : Nat) (subs : List ClientSubRow) : List PushQueueRow :=
  subs.enum.map (fun p =>
    { id := basePushId + p.1, client_id := p.2.client_id, message := msg,
      retry_time := now, retries := 0 })

/-- The state after the two upserts of `insert_ad` (db.py:619-664) when no
fan-out happens: `ad_content` and `ad_content_text` rows replaced for their
unique keys with `last_seen = now`. -/
def insertAdQuietState (hashFn : String → String) (now : Int) (qid : Nat)
    (id account_name account_url : String) (start_date : Int) (text : String)
    (screenshot : List Nat) (st : DBState) : DBState :=
  { st with
    ad_content := (st.ad_content.filter (fun r =>
      !(r.ad_query_id == qid && r.id == id))) ++
      [{ rowid := st.next_ad_rowid, ad_query_id := qid, id, account_name,
         account_url, start_date, last_seen := now,
         text_hash := hashFn (pyLower text), text, screenshot }]
    next_ad_rowid := st.next_ad_rowid + 1
    ad_content_text := (st.ad_content_text.filter (fun r =>
      !(r.ad_query_id == qid && r.text_hash == hashFn (pyLower text)))) ++
      [{ ad_query_id := qid, text_hash := hashFn (pyLower text), text,
         last_seen := now }] }

/-- The state after `insert_ad` when fan-out happens: the quiet state plus
the new queue rows, the bumped queue counter, and `last_notify = now` on the
query. -/
def insertAdNotifyState (hashFn : String → String) (now : Int) (qid : Nat)
    (id account_name account_url : String) (start_date : Int) (text : String)
    (screenshot : List Nat) (qrow : AdQueryRow) (st : DBState) : DBState :=
  { insertAdQuietState hashFn now qid id account_name account_url start_date
      text screenshot st with
    push_queue := st.push_queue ++
      fanoutItems now
        (notifyMessage qid qrow.nickname id account_name account_url text)
        st.next_push_id (eligibleSubs qid st)
    next_push_id := st.next_push_id + (eligibleSubs qid st).length
    ad_queries := st.ad_queries.map (setLastNotify qid now) }

/-- Helper: the body of `insert_ad` once the query row is found, written
without let-bindings. -/
theorem insert_ad_unfold (hashFn : String → String) (now : Int) (qid : Nat)
    (id account_name account_url : String) (start_date : Int) (text : String)
    (screenshot : List Nat) (text_expiration min_notify_interval : Int)
    (st : DBState) (qrow : AdQueryRow)
    (hq : st.ad_queries.find? (fun r => r.ad_query_id == qid) = some qrow) :
    insert_ad hashFn now qid id account_name account_url start_date text
      screenshot text_expiration min_notify_interval st =
      (if ((st.ad_content_text.filter (fun r =>
            r.ad_query_id == qid && r.text_hash == hashFn (pyLower text) &&
              decide (r.last_seen > now - text_expiration))).length == 0)
          && (match qrow.last_notify with
              | none => true
              | some t => decide (t < now - min_notify_interval)) then
        .ok (insertAdNotifyState hashFn now qid id account_name account_url
          start_date text screenshot qrow st, true)
      else
        .ok (insertAdQuietState hashFn now qid id account_name account_url
          start_date text screenshot st, true)) := by
  unfold insert_ad
  rw [hq]
  rfl

/-- Modelled from the claim's wording: no AdContentText row with the same
`(ad_query_id, text_hash)` has `last_seen` within `text_expiration` of now. -/
def specNoFreshText (hashFn : String → String) (now : Int) (qid : Nat)
    (text : String) (text_expiration : Int) (st : DBState) : Prop :=
  ¬ ∃ t ∈ st.ad_content_text, t.ad_query_id = qid ∧
      t.text_hash = hashFn (pyLower text) ∧ now - t.last_seen < text_expiration

/-- Modelled from the claim's wording: the query's `last_notify` is null or
older than `min_notify_interval`. -/
def specNotifyAllowed (now min_notify_interval : Int) (qrow : AdQueryRow) :
    Prop :=
  qrow.last_notify = none ∨
    ∃ t, qrow.last_notify = some t ∧ t < now - min_notify_interval

/-- C1: an `insert_ad` call that finds its query returns true; fan-out
happens if and only if the claim's two conditions hold on the pre-state, in
which case the push queue is extended by exactly one item per eligible
subscription (canonical payload, `retry_time = now`, `retries = 0`) and the
query's `last_notify` becomes now; otherwise the push queue is unchanged. -/
theorem c1_insert_ad_fanout_spec (hashFn : String → String) (now : Int)
    (qid : Nat) (id account_name account_url : String) (start_date : Int)
    (text : String) (screenshot : List Nat)
    (text_expiration min_notify_interval : Int) (st st' : DBState) (b : Bool)
    (qrow : AdQueryRow)
    (hq : st.ad_queries.find? (fun r => r.ad_query_id == qid) = some qrow)
    (hrun : insert_ad hashFn now qid id account_name account_url start_date
      text screenshot text_expiration min_notify_interval st = .ok (st', b)) :
    b = true ∧
    ((specNoFreshText hashFn now qid text text_expiration st ∧
      specNotifyAllowed now min_notify_interval qrow) →
      st'.push_queue = st.push_queue ++
        fanoutItems now
          (notifyMessage qid qrow.nickname id account_name account_url text)
          st.next_push_id (eligibleSubs qid st) ∧
      st'.ad_queries.find? (fun r => r.ad_query_id == qid) =
        some { qrow with last_notify := some now }) ∧
    (¬ (specNoFreshText hashFn now qid text text_expiration st ∧
        specNotifyAllowed now min_notify_interval qrow) →
      st'.push_queue = st.push_queue) := by
  have hiff : (((st.ad_content_text.filter (fun r =>
        r.ad_query_id == qid && r.text_hash == hashFn (pyLower text) &&
          decide (r.last_seen > now - text_expiration))).length == 0)
      && (match qrow.last_notify with
          | none => true
          | some t => decide (t < now - min_notify_interval))) = true ↔
      (specNoFreshText hashFn now qid text text_expiration st ∧
       specNotifyAllowed now min_notify_interval qrow) := by
    rw [Bool.and_eq_true]
    constructor
    · rintro ⟨h1, h2⟩
      constructor
      · rw [beq_iff_eq, List.length_eq_zero, List.filter_eq_nil_iff] at h1
        rintro ⟨t, ht, he1, he2, he3⟩
        apply h1 t ht
        simp only [Bool.and_eq_true, beq_iff_eq, decide_eq_true_iff]
        exact ⟨⟨he1, he2⟩, by omega⟩
      · unfold specNotifyAllowed
        cases hln : qrow.last_notify with
        | none => exact Or.inl rfl
        | some t =>
          rw [hln] at h2
          exact Or.inr ⟨t, rfl, of_decide_eq_true h2⟩
    · rintro ⟨h1, h2⟩
      constructor
      · rw [beq_iff_eq, List.length_eq_zero, List.filter_eq_nil_iff]
        intro t ht hp
        simp only [Bool.and_eq_true, beq_iff_eq, decide_eq_true_iff] at hp
        exact h1 ⟨t, ht, hp.1.1, hp.1.2, by omega⟩
      · unfold specNotifyAllowed at h2
        rcases h2 with h2 | ⟨t, ht, hlt⟩
        · rw [h2]
        · rw [ht]
          exact decide_eq_true hlt
  rw [insert_ad_unfold hashFn now qid id account_name account_url start_date
    text screenshot text_expiration min_notify_interval st qrow hq] at hrun
  by_cases hcond : (((st.ad_content_text.filter (fun r =>
        r.ad_query_id == qid && r.text_hash == hashFn (pyLower text) &&
          decide (r.last_seen > now - text_expiration))).length == 0)
      && (match qrow.last_notify with
          | none => true
          | some t => decide (t < now - min_notify_interval))) = true
  · rw [if_pos hcond] at hrun
    cases hrun
    refine ⟨rfl, ?_, ?_⟩
    · intro _
      refine ⟨rfl, ?_⟩
      show (st.ad_queries.map (setLastNotify qid now)).find?
        (fun r => r.ad_query_id == qid) = some _
      rw [List.find?_map]
      have hpf : ((fun r : AdQueryRow => r.ad_query_id == qid) ∘
          setLastNotify qid now) = fun r => r.ad_query_id == qid := by
        funext r
        simp only [Function.comp_apply]
        unfold setLastNotify
        split <;> rfl
      rw [hpf, hq]
      show some (setLastNotify qid now qrow) =
        some { qrow with last_notify := some now }
      unfold setLastNotify
      rw [if_pos (List.find?_some hq)]
    · intro hnc
      exact absurd (hiff.mp hcond) hnc
  · rw [if_neg hcond] at hrun
    cases hrun
    refine ⟨rfl, ?_, fun _ => rfl⟩
    intro hc
    exact absurd (hiff.mpr hc) hcond

/-! ## C2 — `cleanup_ads` -/

/-- The rows of query `q` ordered by `(last_seen DESC, start_date DESC)`, as
the trimming DELETE of `cleanup_ads` orders them. -/
def sortedRowsOf (q : Nat) (tbl : List AdContentRow) : List AdContentRow :=
  (tbl.filter (fun r => r.ad_query_id == q)).mergeSort adContentOrder

/-- Helper: every trim victim is a row of the trimmed query. -/
theorem victims_spec (m q : Nat) (tbl : List AdContentRow) :
    ∀ v ∈ (sortedRowsOf q tbl).drop m, v ∈ tbl ∧ v.ad_query_id = q := by
  intro v hv
  have hv1 : v ∈ sortedRowsOf q tbl := List.mem_of_mem_drop hv
  have hv2 : v ∈ tbl.filter (fun r => r.ad_query_id == q) :=
    (List.mergeSort_perm _ adContentOrder).mem_iff.mp hv1
  exact ⟨(List.mem_filter.mp hv2).1, beq_iff_eq.mp (List.mem_filter.mp hv2).2⟩

/-- Helper: the sorted row list of a query has no duplicates when the
table's rowids are distinct. -/
theorem sortedRowsOf_nodup (q : Nat) (tbl : List AdContentRow)
    (hnodup : (tbl.map (fun r => r.rowid)).Nodup) :
    (sortedRowsOf q tbl).Nodup := by
  have htbl : tbl.Nodup := List.Nodup.of_map _ hnodup
  have hfil : (tbl.filter (fun r => r.ad_query_id == q)).Nodup :=
    List.Nodup.sublist (List.filter_sublist tbl) htbl
  exact ((List.mergeSort_perm _ adContentOrder).nodup_iff).mpr hfil

/-- Helper: membership in a trimmed table — a row survives `trimQuery` iff it
was present and either belongs to another query or sits within the first
`max_ads` of the sorted order. -/
theorem trimQuery_mem (m q : Nat) (tbl : List AdContentRow)
    (hnodup : (tbl.map (fun r => r.rowid)).Nodup) (r : AdContentRow) :
    r ∈ trimQuery m q tbl ↔
      r ∈ tbl ∧ (r.ad_query_id ≠ q ∨ r ∈ (sortedRowsOf q tbl).take m) := by
  unfold trimQuery
  rw [List.mem_filter]
  have hfold : (tbl.filter (fun r => r.ad_query_id == q)).mergeSort
      adContentOrder = sortedRowsOf q tbl := rfl
  rw [hfold]
  refine and_congr_right fun hrtbl => ?_
  rw [Bool.not_eq_true']
  rw [show (((sortedRowsOf q tbl).drop m).map (fun r => r.rowid)).contains
      r.rowid = false ↔
      ¬ r.rowid ∈ ((sortedRowsOf q tbl).drop m).map (fun r => r.rowid) by
    rw [← Bool.not_eq_true, List.elem_iff]]
  constructor
  · intro hnc
    by_cases hrq : r.ad_query_id = q
    · refine Or.inr ?_
      have hrs : r ∈ sortedRowsOf q tbl :=
        (List.mergeSort_perm _ adContentOrder).mem_iff.mpr
          (List.mem_filter.mpr ⟨hrtbl, beq_iff_eq.mpr hrq⟩)
      rw [← List.take_append_drop m (sortedRowsOf q tbl),
        List.mem_append] at hrs
      rcases hrs with h | h
      · exact h
      · exact absurd (List.mem_map_of_mem _ h) hnc
    · exact Or.inl hrq
  · intro hor hc
    obtain ⟨v, hv, hvid⟩ := List.mem_map.mp hc
    obtain ⟨hvtbl, hvq⟩ := victims_spec m q tbl v hv
    have hvr : v = r := List.inj_on_of_nodup_map hnodup hvtbl hrtbl hvid
    subst hvr
    rcases hor with h | h
    · exact h hvq
    · have hsn : (sortedRowsOf q tbl).Nodup := sortedRowsOf_nodup q tbl hnodup
      rw [← List.take_append_drop m (sortedRowsOf q tbl),
        List.nodup_append] at hsn
      exact hsn.2.2 h hv

/-- Helper: trimming query `q` does not change the rows of another query. -/
theorem trimQuery_filter_ne (m q q' : Nat) (hne : q' ≠ q)
    (tbl : List AdContentRow)
    (hnodup : (tbl.map (fun r => r.rowid)).Nodup) :
    (trimQuery m q tbl).filter (fun r => r.ad_query_id == q') =
      tbl.filter (fun r => r.ad_query_id == q') := by
  unfold trimQuery
  rw [List.filter_filter]
  apply List.filter_congr
  intro r hr
  have hfold : (tbl.filter (fun r => r.ad_query_id == q)).mergeSort
      adContentOrder = sortedRowsOf q tbl := rfl
  rw [hfold]
  by_cases hq' : (r.ad_query_id == q') = true
  · rw [hq', Bool.true_and, Bool.not_eq_true']
    rw [show (((sortedRowsOf q tbl).drop m).map (fun r => r.rowid)).contains
        r.rowid = false ↔
        ¬ r.rowid ∈ ((sortedRowsOf q tbl).drop m).map (fun r => r.rowid) by
      rw [← Bool.not_eq_true, List.elem_iff]]
    intro hc
    obtain ⟨v, hv, hvid⟩ := List.mem_map.mp hc
    obtain ⟨hvtbl, hvq⟩ := victims_spec m q tbl v hv
    have hvr : v = r := List.inj_on_of_nodup_map hnodup hvtbl hr hvid
    subst hvr
    exact hne (beq_iff_eq.mp hq' ▸ hvq)
  · rw [Bool.eq_false_iff.mpr hq', Bool.false_and]

/-- Helper: trimming yields a sublist of the table. -/
theorem trimQuery_sublist (m q : Nat) (tbl : List AdContentRow) :
    (trimQuery m q tbl).Sublist tbl := by
  unfold trimQuery
  exact List.filter_sublist tbl

/-- Helper: the trimming fold yields a sublist of the table. -/
theorem foldTrim_sublist (m : Nat) (L : List Nat) (tbl : List AdContentRow) :
    (L.foldl (fun t q => trimQuery m q t) tbl).Sublist tbl := by
  induction L generalizing tbl with
  | nil => exact List.Sublist.refl _
  | cons q L ih =>
    exact ((ih (trimQuery m q tbl)).trans (trimQuery_sublist m q tbl))

/-- Helper: membership after the whole trimming fold — a row survives iff it
was present and either its query was not processed or it sits within the
first `max_ads` of its query's sorted order. -/
theorem foldTrim_mem (m : Nat) (L : List Nat) (tbl : List AdContentRow)
    (hnodup : (tbl.map (fun r => r.rowid)).Nodup) (hL : L.Nodup)
    (r : AdContentRow) :
    r ∈ L.foldl (fun t q => trimQuery m q t) tbl ↔
      (r ∈ tbl ∧ (r.ad_query_id ∉ L ∨
        r ∈ (sortedRowsOf r.ad_query_id tbl).take m)) := by
  induction L generalizing tbl with
  | nil => simp
  | cons q L ih =>
    rw [List.foldl_cons]
    have hnodup1 : ((trimQuery m q tbl).map (fun r => r.rowid)).Nodup :=
      List.Nodup.sublist ((trimQuery_sublist m q tbl).map _) hnodup
    obtain ⟨hqL, hL1⟩ := List.nodup_cons.mp hL
    rw [ih (trimQuery m q tbl) hnodup1 hL1]
    rw [trimQuery_mem m q tbl hnodup r]
    by_cases hrq : r.ad_query_id = q
    · constructor
      · rintro ⟨⟨hrtbl, hor⟩, _⟩
        refine ⟨hrtbl, ?_⟩
        rcases hor with h | h
        · exact absurd hrq h
        · exact Or.inr (by rw [hrq]; exact h)
      · rintro ⟨hrtbl, hor⟩
        rcases hor with h | h
        · exact absurd (by rw [hrq]; exact List.mem_cons_self q L) h
        · exact ⟨⟨hrtbl, Or.inr (by rw [hrq] at h; exact h)⟩,
            Or.inl (by rw [hrq]; exact hqL)⟩
    · have hsort : sortedRowsOf r.ad_query_id (trimQuery m q tbl) =
          sortedRowsOf r.ad_query_id tbl := by
        unfold sortedRowsOf
        rw [trimQuery_filter_ne m q r.ad_query_id hrq tbl hnodup]
      rw [hsort]
      constructor
      · rintro ⟨⟨hrtbl, _⟩, hor⟩
        refine ⟨hrtbl, ?_⟩
        rcases hor with h | h
        · exact Or.inl (by
            rw [List.mem_cons]
            rintro (h1 | h1)
            · exact hrq h1
            · exact h h1)
        · exact Or.inr h
      · rintro ⟨hrtbl, hor⟩
        refine ⟨⟨hrtbl, Or.inl hrq⟩, ?_⟩
        rcases hor with h | h
        · exact Or.inl fun hm => h (List.mem_cons_of_mem q hm)
        · exact Or.inr h

/-- The queries selected by the `GROUP BY … HAVING COUNT(*) > max_ads` query
of `cleanup_ads`: the distinct `ad_query_id`s holding more than `max_ads`
rows. -/
def cleanupLarge (max_ads : Nat) (st : DBState) : List Nat :=
  ((st.ad_content.map (fun r => r.ad_query_id)).dedup).filter (fun q =>
    max_ads < (st.ad_content.filter (fun r => r.ad_query_id == q)).length)

/-- The `ad_content` table after the trimming loop of `cleanup_ads`. -/
def cleanupTrimmed (max_ads : Nat) (st : DBState) : List AdContentRow :=
  (cleanupLarge max_ads st).foldl (fun tbl q => trimQuery max_ads q tbl)
    st.ad_content

/-- Helper: the body of `cleanup_ads`, written without let-bindings. -/
theorem cleanup_ads_unfold (now : Int) (max_ads : Nat)
    (text_expiration : Int) (st : DBState) :
    cleanup_ads now max_ads text_expiration st =
      .ok ({ st with
        ad_content := cleanupTrimmed max_ads st
        ad_content_text := st.ad_content_text.filter (fun r =>
          !(decide (r.last_seen < now - text_expiration) &&
            !((cleanupTrimmed max_ads st).any (fun c =>
              c.ad_query_id == r.ad_query_id &&
                c.text_hash == r.text_hash)))) }, ()) := by
  unfold cleanup_ads
  rfl

/-- C2: after `cleanup_ads` returns, every query holds at most `max_ads`
content rows; a pre-existing content row survives exactly when it lies within
the first `max_ads` of its query's `(last_seen DESC, start_date DESC)` order;
no content row appears from nowhere; and a pre-existing text row is deleted
exactly when it is older than `now - text_expiration` and no surviving
content row shares its `(ad_query_id, text_hash)`; no text row appears from
nowhere. The hypothesis is the distinctness of SQLite rowids. -/
theorem c2_cleanup_ads_spec (now : Int) (max_ads : Nat)
    (text_expiration : Int) (st st' : DBState)
    (hnodup : (st.ad_content.map (fun r => r.rowid)).Nodup)
    (hrun : cleanup_ads now max_ads text_expiration st = .ok (st', ())) :
    (∀ q : Nat,
      (st'.ad_content.filter (fun r => r.ad_query_id == q)).length ≤
        max_ads) ∧
    (∀ r ∈ st.ad_content,
      (r ∈ st'.ad_content ↔
        r ∈ (sortedRowsOf r.ad_query_id st.ad_content).take max_ads)) ∧
    (∀ r ∈ st'.ad_content, r ∈ st.ad_content) ∧
    (∀ t ∈ st.ad_content_text,
      (t ∉ st'.ad_content_text ↔
        (t.last_seen < now - text_expiration ∧
         ¬ ∃ c ∈ st'.ad_content, c.ad_query_id = t.ad_query_id ∧
            c.text_hash = t.text_hash))) ∧
    (∀ t ∈ st'.ad_content_text, t ∈ st.ad_content_text) := by
  rw [cleanup_ads_unfold] at hrun
  have hpair := Except.ok.inj hrun
  have hst'eq := congrArg Prod.fst hpair
  simp only at hst'eq
  have hC : st'.ad_content = cleanupTrimmed max_ads st := by
    rw [← hst'eq]
  have hT : st'.ad_content_text = st.ad_content_text.filter (fun r =>
      !(decide (r.last_seen < now - text_expiration) &&
        !((cleanupTrimmed max_ads st).any (fun c =>
          c.ad_query_id == r.ad_query_id && c.text_hash == r.text_hash)))) := by
    rw [← hst'eq]
  have hLnodup : (cleanupLarge max_ads st).Nodup :=
    List.Nodup.filter _ (List.nodup_dedup _)
  have hmem : ∀ r : AdContentRow,
      r ∈ cleanupTrimmed max_ads st ↔
        (r ∈ st.ad_content ∧ (r.ad_query_id ∉ cleanupLarge max_ads st ∨
          r ∈ (sortedRowsOf r.ad_query_id st.ad_content).take max_ads)) :=
    fun r => foldTrim_mem max_ads (cleanupLarge max_ads st) st.ad_content
      hnodup hLnodup r
  have hLiff : ∀ r ∈ st.ad_content,
      (r.ad_query_id ∈ cleanupLarge max_ads st ↔
        max_ads < (st.ad_content.filter (fun x =>
          x.ad_query_id == r.ad_query_id)).length) := by
    intro r hr
    unfold cleanupLarge
    rw [List.mem_filter, List.mem_dedup]
    constructor
    · rintro ⟨_, hp⟩
      exact of_decide_eq_true hp
    · intro hp
      exact ⟨List.mem_map_of_mem _ hr, decide_eq_true hp⟩
  have hsurv : ∀ r ∈ st.ad_content,
      (r ∈ st'.ad_content ↔
        r ∈ (sortedRowsOf r.ad_query_id st.ad_content).take max_ads) := by
    intro r hr
    rw [hC, hmem r]
    constructor
    · rintro ⟨_, hor⟩
      rcases hor with h | h
      · have hnb : ¬ max_ads < (st.ad_content.filter (fun x =>
            x.ad_query_id == r.ad_query_id)).length :=
          fun hb => h ((hLiff r hr).mpr hb)
        have hlen : (sortedRowsOf r.ad_query_id st.ad_content).length ≤
            max_ads := by
          unfold sortedRowsOf
          rw [(List.mergeSort_perm _ _).length_eq]
          omega
        rw [List.take_of_length_le hlen]
        exact (List.mergeSort_perm _ adContentOrder).mem_iff.mpr
          (List.mem_filter.mpr ⟨hr, beq_iff_eq.mpr rfl⟩)
      · exact h
    · intro h
      exact ⟨hr, Or.inr h⟩
  have hsub' : st'.ad_content.Sublist st.ad_content := by
    rw [hC]
    exact foldTrim_sublist _ _ _
  have hnodup' : st'.ad_content.Nodup :=
    List.Nodup.sublist hsub' (List.Nodup.of_map _ hnodup)
  refine ⟨?_, hsurv, fun r hr => hsub'.subset hr, ?_, ?_⟩
  · intro q
    by_cases hbig : max_ads <
        (st.ad_content.filter (fun r => r.ad_query_id == q)).length
    · have hsubset : st'.ad_content.filter (fun r => r.ad_query_id == q) ⊆
          (sortedRowsOf q st.ad_content).take max_ads := by
        intro x hx
        obtain ⟨hx1, hx2⟩ := List.mem_filter.mp hx
        have hxs := (hsurv x (hsub'.subset hx1)).mp hx1
        rw [beq_iff_eq.mp hx2] at hxs
        exact hxs
      have hnd : (st'.ad_content.filter
          (fun r => r.ad_query_id == q)).Nodup :=
        List.Nodup.sublist (List.filter_sublist _) hnodup'
      refine le_trans (hnd.subperm hsubset).length_le ?_
      rw [List.length_take]
      exact min_le_left _ _
    · exact le_trans (List.Sublist.length_le (hsub'.filter _))
        (Nat.not_lt.mp hbig)
  · intro t ht
    have hmemf : t ∈ st'.ad_content_text ↔
        ((!(decide (t.last_seen < now - text_expiration) &&
          !((cleanupTrimmed max_ads st).any (fun c =>
            c.ad_query_id == t.ad_query_id &&
              c.text_hash == t.text_hash)))) = true) := by
      rw [hT, List.mem_filter]
      exact ⟨fun h => h.2, fun h => ⟨ht, h⟩⟩
    rw [hC]
    rw [show (t ∉ st'.ad_content_text) = ¬ (t ∈ st'.ad_content_text) from rfl]
    rw [hmemf]
    rw [Bool.not_eq_true', Bool.not_eq_false, Bool.and_eq_true,
      Bool.not_eq_true', decide_eq_true_eq]
    refine and_congr_right fun _ => ?_
    have hany : ((cleanupTrimmed max_ads st).any (fun c =>
        c.ad_query_id == t.ad_query_id && c.text_hash == t.text_hash) =
          true) ↔
        (∃ c ∈ cleanupTrimmed max_ads st, c.ad_query_id = t.ad_query_id ∧
          c.text_hash = t.text_hash) := by
      rw [List.any_eq_true]
      constructor
      · rintro ⟨c, hc, hp⟩
        rw [Bool.and_eq_true] at hp
        exact ⟨c, hc, beq_iff_eq.mp hp.1, beq_iff_eq.mp hp.2⟩
      · rintro ⟨c, hc, h1, h2⟩
        refine ⟨c, hc, ?_⟩
        rw [Bool.and_eq_true]
        exact ⟨beq_iff_eq.mpr h1, beq_iff_eq.mpr h2⟩
    rw [Bool.eq_false_iff]
    exact not_congr hany
  · intro t ht
    rw [hT] at ht
    exact (List.mem_filter.mp ht).1

/-! ## Witness fixtures and witnesses for C1 and C2 -/

/-- An ad query fixture (query 1, never notified). -/
def qNick : AdQueryRow :=
  { ad_query_id := 1, nickname := "nick", query := "shoes", filters := [],
    next_pull := 0, last_pull := none, last_error := none,
    last_notify := none }

/-- A database with query 1, the push-subscribed client 1, and its
subscription edge. -/
def stFanout : DBState :=
  { DBState.empty with
    ad_queries := [qNick], next_ad_query_id := 2
    clients := [cliSub], next_client_id := 2
    client_subs := [⟨1, 1⟩] }

/-- The run of `insert_ad` on the fan-out witness database. -/
def c1Run : DBState × Except DBError Bool :=
  runTxn (insert_ad (fun s => s) 10 1 "ad1" "acct" "url" 3 "Ad Text" []
    3600 300) stFanout

/-- C1 witness: the fan-out contract applied to a novel ad inserted for a
query with one push-subscribed client. -/
theorem c1_insert_ad_fanout_witness :
    (true = true ∧
     ((specNoFreshText (fun s => s) 10 1 "Ad Text" 3600 stFanout ∧
       specNotifyAllowed 10 300 qNick) →
       c1Run.1.push_queue = stFanout.push_queue ++
         fanoutItems 10
           (notifyMessage 1 qNick.nickname "ad1" "acct" "url" "Ad Text")
           stFanout.next_push_id (eligibleSubs 1 stFanout) ∧
       c1Run.1.ad_queries.find? (fun r => r.ad_query_id == 1) =
         some { qNick with last_notify := some 10 }) ∧
     (¬ (specNoFreshText (fun s => s) 10 1 "Ad Text" 3600 stFanout ∧
         specNotifyAllowed 10 300 qNick) →
       c1Run.1.push_queue = stFanout.push_queue)) :=
  c1_insert_ad_fanout_spec (fun s => s) 10 1 "ad1" "acct" "url" 3 "Ad Text"
    [] 3600 300 stFanout c1Run.1 true qNick (by decide)
    (by set_option maxRecDepth 8000 in decide)

/-- An old content row of query 1 (`last_seen = 5`). -/
def adRowOld : AdContentRow :=
  { rowid := 1, ad_query_id := 1, id := "a", account_name := "n",
    account_url := "u", start_date := 0, last_seen := 5, text_hash := "h1",
    text := "t1", screenshot := [] }

/-- A fresher content row of query 1 (`last_seen = 9`). -/
def adRowNew : AdContentRow :=
  { adRowOld with
    rowid := 2, id := "b", last_seen := 9, text_hash := "h2", text := "t2" }

/-- A stale text-ledger row matching only the old content row. -/
def txtRowOld : AdContentTextRow :=
  { ad_query_id := 1, text_hash := "h1", text := "t1", last_seen := 5 }

/-- A database where query 1 holds two content rows and one stale text row. -/
def stCleanup : DBState :=
  { DBState.empty with
    ad_queries := [qNick], next_ad_query_id := 2
    ad_content := [adRowOld, adRowNew], next_ad_rowid := 3
    ad_content_text := [txtRowOld] }

/-- The run of `cleanup_ads` at time 100 with `max_ads = 1`,
`text_expiration = 10`. -/
def c2Run : DBState × Except DBError Unit :=
  runTxn (cleanup_ads 100 1 10) stCleanup

unseal List.merge List.mergeSort in
/-- C2 witness: the cleanup contract applied to the concrete two-row
database; the fresher row survives, the old row and its orphaned stale text
row are deleted. -/
theorem c2_cleanup_ads_witness :
    ((∀ q : Nat, (c2Run.1.ad_content.filter
        (fun r => r.ad_query_id == q)).length ≤ 1) ∧
     (∀ r ∈ stCleanup.ad_content,
       (r ∈ c2Run.1.ad_content ↔
         r ∈ (sortedRowsOf r.ad_query_id stCleanup.ad_content).take 1)) ∧
     (∀ r ∈ c2Run.1.ad_content, r ∈ stCleanup.ad_content) ∧
     (∀ t ∈ stCleanup.ad_content_text,
       (t ∉ c2Run.1.ad_content_text ↔
         (t.last_seen < 100 - 10 ∧
          ¬ ∃ c ∈ c2Run.1.ad_content, c.ad_query_id = t.ad_query_id ∧
             c.text_hash = t.text_hash))) ∧
     (∀ t ∈ c2Run.1.ad_content_text, t ∈ stCleanup.ad_content_text)) :=
  c2_cleanup_ads_spec 100 1 10 stCleanup c2Run.1 (by decide) (by decide)

end AdIndex

